import Mathlib

/-!
Verification of the Scroll Reveal Controller (`src/script.js`, class
`ScrollAnimator`) against its natural-language specification.

The JavaScript source is shallowly embedded below:
* `handleEntry` embeds `handleIntersection` (script.js:50-67) acting on one
  intersection entry for one element;
* `throttleStep` embeds the pending-flag gate of `addParallaxEffect`
  (script.js:69-81);
* `parseMatrixAB`, `rotationAngle`, `getRotationFromMatrix` embed
  `getRotationFromMatrix` (script.js:105-123);
* `updateParallax` embeds `updateParallax` (script.js:83-103);
* `initA` / `refreshA` and `initTrace` embed `init` (script.js:22-48) and
  `refresh` (script.js:125-131) on an abstract document.

JavaScript numbers are idealised as exact rationals (for parsed values and
scroll arithmetic) and reals (for the `atan2`-based angle computation);
`Math.atan2` is modelled by `Complex.arg`, whose range `(-pi, pi]` matches
the JS function on inputs without a negative zero, and `Math.round` by
Mathlib's `round` (both round halves toward positive infinity).
-/

/-! ## Reveal state: `handleIntersection` (script.js:50-67) -/

/-- Observable state of one watched element: whether its class list contains
the class `animated`, and whether the controller's observer is still
observing it. -/
structure WatchState where
  animated : Bool
  observed : Bool
  deriving DecidableEq

/-- Embeds one iteration of the `entries.forEach` loop of
`handleIntersection` (script.js:51-66): if the entry is intersecting, add
the class `animated` and, when `once` is set, unobserve the target;
otherwise remove the class unless `once` is set. -/
def handleEntry (once : Bool) (isIntersecting : Bool) (s : WatchState) : WatchState :=
  if isIntersecting then
    let s1 := { s with animated := true }
    if once then { s1 with observed := false } else s1
  else
    if !once then { s with animated := false } else s

/-- Modelled from the spec: the platform visibility watcher (an external
service, spec section 1) delivers a visibility-change notification carrying
`isIntersecting = (r >= t)` for threshold `t` and visibility ratio `r`
("the element is now sufficiently visible (crossed the configured
threshold)"), and only elements still being observed receive
notifications. The handler applied to the notification is `handleEntry`,
embedded from the source. -/
def notify (once : Bool) (t r : ℚ) (s : WatchState) : WatchState :=
  if s.observed then handleEntry once (decide (t ≤ r)) s else s

/-- State of a freshly observed element: class not applied, observed. -/
def initWatch : WatchState :=
  { animated := false, observed := true }

/-- A sequence of visibility-change notifications with ratios `rs`,
delivered one at a time to the element. -/
def runNotifies (once : Bool) (t : ℚ) (rs : List ℚ) (s : WatchState) : WatchState :=
  rs.foldl (fun s r => notify once t r s) s

/-! ## Scroll throttling: `addParallaxEffect` (script.js:69-81) -/

/-- State of the pending-flag gate: the `ticking` flag, the number of
scheduled (not yet executed) animation-frame callbacks, and the number of
recomputations that have run. -/
structure Throttle where
  ticking : Bool
  pending : ℕ
  runs : ℕ
  deriving DecidableEq

/-- Events driving the gate: a scroll event, or a display-refresh cycle in
which the platform runs a scheduled animation-frame callback if one exists. -/
inductive ScrollEv where
  | scroll
  | frame
  deriving DecidableEq

/-- Embeds the scroll listener and the scheduled callback of
`addParallaxEffect` (script.js:72-80): a scroll event schedules one
recomputation and sets `ticking` only when `ticking` is clear; running the
scheduled callback performs the recomputation and then clears `ticking`. -/
def throttleStep (s : Throttle) : ScrollEv → Throttle
  | ScrollEv.scroll =>
      if s.ticking then s
      else { s with pending := s.pending + 1, ticking := true }
  | ScrollEv.frame =>
      match s.pending with
      | 0 => s
      | n + 1 => { ticking := false, pending := n, runs := s.runs + 1 }

/-- The gate state reached from the initial state (flag clear, nothing
scheduled, nothing run) after a sequence of events. -/
def throttleRun (evs : List ScrollEv) : Throttle :=
  evs.foldl throttleStep { ticking := false, pending := 0, runs := 0 }

/-- The gate invariant: exactly one callback is scheduled while the flag is
set, none while it is clear. -/
def ThrottleInv (s : Throttle) : Prop :=
  s.pending = if s.ticking then 1 else 0

/-! ## Initialization and refresh: `init` (script.js:22-48), `refresh`
(script.js:125-131) -/

/-- A document element as seen by `init`: whether it carries the
`data-scroll` marker attribute, the value of its `data-scroll-delay`
attribute (`none` when the attribute is absent), whether its class list
contains `animated`, and its `style.transitionDelay` (`none` when unset). -/
structure PageElem where
  dataScroll : Bool
  delayAttr : Option String
  animated : Bool
  transitionDelay : Option String
  deriving DecidableEq

/-- Embeds the delay application of `init` (script.js:38-41): `if (delay)`
is JavaScript truthiness, false for a missing attribute and for the empty
string; otherwise `style.transitionDelay` is set to the template literal
result, the attribute value followed by `ms`. -/
def applyDelay (e : PageElem) : PageElem :=
  match e.delayAttr with
  | some d => if d = "" then e else { e with transitionDelay := some (d ++ "ms") }
  | none => e

/-- Effect of `init`'s per-element loop on one document element: watched
elements have their delay applied, other elements are untouched. -/
def passElem (e : PageElem) : PageElem :=
  if e.dataScroll then applyDelay e else e

/-- The document after `init`'s per-element loop. -/
def initDocPass (doc : List PageElem) : List PageElem :=
  doc.map passElem

/-- Indices (in document order, starting at `k`) of the elements carrying
the `data-scroll` attribute: embeds
`Array.from(document.querySelectorAll('[data-scroll]'))` (script.js:24). -/
def watchedIdxFrom : ℕ → List PageElem → List ℕ
  | _, [] => []
  | k, e :: es =>
      if e.dataScroll then k :: watchedIdxFrom (k + 1) es
      else watchedIdxFrom (k + 1) es

/-- Indices of the watched elements of a document. -/
def watchedIdx (doc : List PageElem) : List ℕ :=
  watchedIdxFrom 0 doc

/-- Controller state: the document, `this.elements` (as indices into the
document), and the set of indices observed by `this.observer`. -/
structure Animator where
  doc : List PageElem
  elements : List ℕ
  observed : List ℕ
  deriving DecidableEq

/-- Embeds `init` (script.js:22-48): collect the watched elements, create a
fresh observer, then for each watched element apply its delay and observe
it. The fresh observer observes exactly the collected elements. -/
def initA (s : Animator) : Animator :=
  let els := watchedIdx s.doc
  { doc := initDocPass s.doc, elements := els, observed := els }

/-- Embeds the unobserve loop of `refresh` (script.js:127-129): every
element of `this.elements` is removed from the observer's set. -/
def unobserveAll (s : Animator) : Animator :=
  { s with observed := s.observed.filter (fun i => decide (i ∉ s.elements)) }

/-- Embeds `refresh` (script.js:125-131): unobserve all current elements,
then re-run `init`. -/
def refreshA (s : Animator) : Animator :=
  initA (unobserveAll s)

/-- Primitive effects of `init`'s per-element loop (script.js:36-44), in
execution order: setting an element's transition delay, and registering an
element with the observer. -/
inductive InitAction where
  | setDelay (i : ℕ) (v : String)
  | observe (i : ℕ)
  deriving DecidableEq

/-- The effects `init` performs for one watched element (script.js:37-43):
set the transition delay when the delay attribute is present and truthy,
then observe the element. -/
def obsActions (e : PageElem) (i : ℕ) : List InitAction :=
  match e.delayAttr with
  | some d =>
      if d = "" then [InitAction.observe i]
      else [InitAction.setDelay i (d ++ "ms"), InitAction.observe i]
  | none => [InitAction.observe i]

/-- The trace of effects of `init`'s loop over the document elements from
index `k` on: watched elements contribute their effects in document order. -/
def initTraceFrom : ℕ → List PageElem → List InitAction
  | _, [] => []
  | k, e :: es =>
      (if e.dataScroll then obsActions e k else []) ++ initTraceFrom (k + 1) es

/-- The full effect trace of `init`'s per-element loop. -/
def initTrace (doc : List PageElem) : List InitAction :=
  initTraceFrom 0 doc

/-! ## Matrix parsing: `getRotationFromMatrix` (script.js:105-123) -/

/-- Auxiliary for `jsSplit`: splits the remaining characters at every
occurrence of `sep`, with `acc` holding the reversed current segment. -/
def splitCharAux (sep : Char) : List Char → List Char → List String
  | [], acc => [String.mk acc.reverse]
  | c :: cs, acc =>
      if c = sep then String.mk acc.reverse :: splitCharAux sep cs []
      else splitCharAux sep cs (c :: acc)

/-- Models `String.prototype.split` with a single-character separator:
the empty string splits to `[""]`, and a trailing separator yields a
trailing empty segment, as in JavaScript. -/
def jsSplit (s : String) (sep : Char) : List String :=
  splitCharAux sep s.data []

/-- Whitespace skipped by `parseFloat`. Only the ASCII whitespace
characters are modelled; no input in this development uses the other
Unicode whitespace code points. -/
def jsWhitespace (c : Char) : Bool :=
  c = ' ' || c = '\t' || c = '\n' || c = '\r'

/-- Numeric value of a list of decimal digit characters. -/
def digitsToNat (ds : List Char) : ℕ :=
  ds.foldl (fun n c => 10 * n + (c.toNat - 48)) 0

/-- Exponent value of the characters following a parsed mantissa: an `e` or
`E`, an optional sign, and digits. When the exponent part is absent or
malformed it contributes nothing (exponent 0), as `parseFloat` stops at the
longest valid prefix. -/
def expValue (cs : List Char) : ℤ :=
  match cs with
  | c :: rest =>
      if c = 'e' || c = 'E' then
        match rest with
        | '-' :: r2 =>
            let ds := r2.takeWhile Char.isDigit
            if ds.isEmpty then 0 else -(digitsToNat ds : ℤ)
        | '+' :: r2 =>
            let ds := r2.takeWhile Char.isDigit
            if ds.isEmpty then 0 else (digitsToNat ds : ℤ)
        | r2 =>
            let ds := r2.takeWhile Char.isDigit
            if ds.isEmpty then 0 else (digitsToNat ds : ℤ)
      else 0
  | [] => 0

/-- Models JavaScript `parseFloat` on decimal literals, with JS numbers
idealised as exact rationals: skip leading whitespace, take an optional
sign, then the longest prefix of the form digits, digits `.` digits or
`.` digits, with an optional exponent; trailing garbage is ignored.
`none` models a NaN result (no parsable prefix). The `Infinity` literal is
not modelled (it has no rational value; no input here uses it). -/
def jsParseFloat (s : String) : Option ℚ :=
  let cs := s.data.dropWhile jsWhitespace
  let signAndRest : ℚ × List Char :=
    match cs with
    | '-' :: rest => (-1, rest)
    | '+' :: rest => (1, rest)
    | _ => (1, cs)
  let sign := signAndRest.1
  let cs1 := signAndRest.2
  let intPart := cs1.takeWhile Char.isDigit
  let cs2 := cs1.dropWhile Char.isDigit
  let fracAndRest : List Char × List Char :=
    match cs2 with
    | '.' :: rest => (rest.takeWhile Char.isDigit, rest.dropWhile Char.isDigit)
    | _ => ([], cs2)
  let fracPart := fracAndRest.1
  let cs3 := fracAndRest.2
  if intPart.isEmpty && fracPart.isEmpty then none
  else
    let mant : ℚ :=
      (digitsToNat intPart : ℚ) + (digitsToNat fracPart : ℚ) / (10 : ℚ) ^ fracPart.length
    some (sign * mant * (10 : ℚ) ^ expValue cs3)

/-- Outcome of the parsing phase of `getRotationFromMatrix`
(script.js:106-115): the two leading matrix components, or one of the two
kinds of return-0 paths. -/
inductive MatrixParse where
  /-- Both leading components parsed: the `a` and `b` of the matrix. -/
  | ok (a b : ℚ)
  /-- An explicit `return 0` path: the `none`/empty input check
  (script.js:106), fewer than two components (script.js:110), or a NaN
  component (script.js:115). -/
  | bad
  /-- The caught-exception path (script.js:119-122): `matrix.split('(')[1]`
  is `undefined`, so `.split(')')` throws a TypeError, caught by the
  `catch` block, which logs a warning and returns 0. -/
  | caught
  deriving DecidableEq

/-- Embeds the parsing phase of `getRotationFromMatrix` (script.js:106-115):
the `none`/falsy check, `matrix.split('(')[1].split(')')[0].split(',')`,
the length check and the two `parseFloat` calls with their NaN checks. -/
def parseMatrixAB (matrix : String) : MatrixParse :=
  if matrix = "none" || matrix = "" then MatrixParse.bad
  else
    match (jsSplit matrix '(').get? 1 with
    | none => MatrixParse.caught
    | some seg =>
        let inner := (jsSplit seg ')').headD ""
        let values := jsSplit inner ','
        if values.length < 2 then MatrixParse.bad
        else
          match jsParseFloat (values.getD 0 ""), jsParseFloat (values.getD 1 "") with
          | some a, some b => MatrixParse.ok a b
          | _, _ => MatrixParse.bad

/-- Whether `getRotationFromMatrix` emits its `console.warn` diagnostic on
input `matrix`: exactly on the caught-exception path (script.js:120). -/
def emitsWarning (matrix : String) : Bool :=
  match parseMatrixAB matrix with
  | MatrixParse.caught => true
  | _ => false

/-- Models `Math.atan2 y x` by the argument of the complex number
`x + y * I`; both have range `(-pi, pi]` on inputs without a negative
zero. -/
noncomputable def atan2 (y x : ℝ) : ℝ :=
  Complex.arg (Complex.mk x y)

/-- Embeds the angle computation of `getRotationFromMatrix`
(script.js:117): `Math.round(Math.atan2(b, a) * (180 / Math.PI))`. -/
noncomputable def rotationAngle (a b : ℝ) : ℤ :=
  round (atan2 b a * (180 / Real.pi))

/-- Embeds `getRotationFromMatrix` (script.js:105-123): 0 on every
return-0 path, otherwise the rounded angle in degrees. -/
noncomputable def getRotationFromMatrix (matrix : String) : ℤ :=
  match parseMatrixAB matrix with
  | MatrixParse.ok a b => rotationAngle (a : ℝ) (b : ℝ)
  | MatrixParse.bad => 0
  | MatrixParse.caught => 0

/-! ## Parallax update: `updateParallax` (script.js:83-103) -/

/-- A DOM node as seen by `updateParallax`'s skip test: whether it carries
the `data-scroll` attribute, and whether its class list contains
`animated`. -/
structure DomNode where
  dataScroll : Bool
  animated : Bool
  deriving DecidableEq

/-- A decorative (`.triangle`) element: the node itself, its proper
ancestors (nearest first), and its computed `transform` string. -/
structure Decorative where
  self : DomNode
  ancestors : List DomNode
  transform : String
  deriving DecidableEq

/-- Truthiness of `triangle.closest('[data-scroll]')` (script.js:89):
whether the element itself or some ancestor carries `data-scroll`. -/
def closestDataScroll (t : Decorative) : Bool :=
  t.self.dataScroll || t.ancestors.any (fun n => n.dataScroll)

/-- Embeds the `triangles.forEach((triangle, index) => ...)` body of
`updateParallax` (script.js:87-102) from position `index` on: `none` for a
skipped element (early `return`), otherwise the applied transform as the
pair of the `translateY` offset and the `rotate` angle. -/
noncomputable def updateParallaxFrom (scrolled : ℚ) : ℕ → List Decorative → List (Option (ℚ × ℤ))
  | _, [] => []
  | index, triangle :: rest =>
      (if closestDataScroll triangle && !triangle.self.animated then none
       else
         let speed : ℚ := 3/10 + (index : ℚ) * (1/10)
         let yPos : ℚ := -(scrolled * speed)
         some (yPos, getRotationFromMatrix triangle.transform))
      :: updateParallaxFrom scrolled (index + 1) rest

/-- Embeds `updateParallax` (script.js:83-103) for scroll offset
`scrolled`: the transform applied to each decorative element, in document
order (`none` = skipped). -/
noncomputable def updateParallax (scrolled : ℚ) (triangles : List Decorative) :
    List (Option (ℚ × ℤ)) :=
  updateParallaxFrom scrolled 0 triangles

/-- A decorative element nested strictly inside a watched element: the
element itself is unwatched and unrevealed, its parent carries
`data-scroll` and has been revealed (class `animated` applied). -/
def nestedTriangle : Decorative :=
  { self := { dataScroll := false, animated := false }
    ancestors := [{ dataScroll := true, animated := true }]
    transform := "none" }

/-- A free-standing decorative element: no watched ancestor, identity
computed transform. -/
def plainTriangle : Decorative :=
  { self := { dataScroll := false, animated := false }
    ancestors := []
    transform := "none" }

/-- Reachability invariant of one element's watch state: under single-shot
mode a still-observed element has not been revealed yet, and outside
single-shot mode the element is never unobserved. -/
def WatchInv (once : Bool) (s : WatchState) : Prop :=
  (once = true → s.observed = true → s.animated = false) ∧
  (once = false → s.observed = true)

/-! ## Reveal-state lemmas and theorems (claims C2, C3) -/

theorem handleEntry_watchInv (once b : Bool) (s : WatchState)
    (h : WatchInv once s) : WatchInv once (handleEntry once b s) := by
  rcases s with ⟨a, o⟩
  revert h
  unfold WatchInv handleEntry
  cases once <;> cases b <;> cases a <;> cases o <;> decide

theorem notify_watchInv (once : Bool) (t r : ℚ) (s : WatchState)
    (h : WatchInv once s) : WatchInv once (notify once t r s) := by
  unfold notify
  by_cases ho : s.observed = true
  · rw [if_pos ho]; exact handleEntry_watchInv once _ s h
  · rw [if_neg ho]; exact h

theorem runNotifies_watchInv (once : Bool) (t : ℚ) (rs : List ℚ) :
    ∀ s : WatchState, WatchInv once s → WatchInv once (runNotifies once t rs s) := by
  induction rs with
  | nil => intro s h; exact h
  | cons r rs ih =>
      intro s h
      exact ih (notify once t r s) (notify_watchInv once t r s h)

theorem initWatch_inv (once : Bool) : WatchInv once initWatch := by
  constructor <;> intro _ <;> simp [initWatch]

/-- C2: a visibility-change notification with ratio `r` delivered to a
still-observed element leaves the element's class applied iff `r >= t`;
and outside single-shot mode a notification with `r < t` for an
already-revealed element removes the class. -/
theorem reveal_iff_threshold (once : Bool) (t r : ℚ) (rs : List ℚ)
    (hobs : (runNotifies once t rs initWatch).observed = true) :
    ((notify once t r (runNotifies once t rs initWatch)).animated = true ↔ t ≤ r) ∧
    (once = false → (runNotifies once t rs initWatch).animated = true → r < t →
      (notify once t r (runNotifies once t rs initWatch)).animated = false) := by
  have hinv := runNotifies_watchInv once t rs initWatch (initWatch_inv once)
  have hnot : notify once t r (runNotifies once t rs initWatch) =
      handleEntry once (decide (t ≤ r)) (runNotifies once t rs initWatch) := by
    unfold notify; rw [if_pos hobs]
  constructor
  · rw [hnot]
    by_cases hr : t ≤ r
    · rcases Bool.eq_false_or_eq_true once with honce | honce <;> subst honce <;>
        simp [handleEntry, hr]
    · rcases Bool.eq_false_or_eq_true once with honce | honce <;> subst honce
      · have ha : (runNotifies true t rs initWatch).animated = false :=
          hinv.1 rfl hobs
        simp [handleEntry, hr, ha]
      · simp [handleEntry, hr]
  · intro honce _ hrt
    subst honce
    have hr : ¬ t ≤ r := not_le.mpr hrt
    rw [hnot]
    simp [handleEntry, hr]

/-- Witness for C2 at `once = false`, `t = 1/5`, `r = 1/2` and the freshly
initialized element. -/
theorem reveal_iff_threshold_witness :
    (runNotifies false (1/5) [] initWatch).observed = true ∧
    ((notify false (1/5) (1/2) (runNotifies false (1/5) [] initWatch)).animated = true ↔
      (1/5 : ℚ) ≤ 1/2) :=
  ⟨rfl, (reveal_iff_threshold false (1/5) (1/2) [] rfl).1⟩

theorem notify_animated_once (t r : ℚ) (s : WatchState) (h : s.animated = true) :
    (notify true t r s).animated = true := by
  unfold notify
  by_cases ho : s.observed = true
  · rw [if_pos ho]
    by_cases hr : t ≤ r <;> simp [handleEntry, hr, h]
  · rw [if_neg ho]; exact h

/-- C3: under `once = true`, once an element's class is applied no sequence
of further notifications (whatever their ratios, including 0) ever removes
it; the handler unobserves the element in the very step that reveals it;
and an unobserved element is unaffected by any notification. -/
theorem single_shot_sticky (t : ℚ) (rs : List ℚ) (s : WatchState)
    (h : s.animated = true) :
    (runNotifies true t rs s).animated = true ∧
    (∀ s' : WatchState, (handleEntry true true s').observed = false) ∧
    (∀ (once : Bool) (u v : ℚ) (a : Bool),
      notify once u v { animated := a, observed := false } =
        { animated := a, observed := false }) := by
  refine ⟨?_, ?_, ?_⟩
  · induction rs generalizing s with
    | nil => exact h
    | cons r rs ih => exact ih (notify true t r s) (notify_animated_once t r s h)
  · intro s'; simp [handleEntry]
  · intro once u v a; simp [notify]

/-- Witness for C3: a revealed element stays revealed across a notification
with ratio 0. -/
theorem single_shot_sticky_witness :
    ({ animated := true, observed := true } : WatchState).animated = true ∧
    (runNotifies true (1/5) [0] { animated := true, observed := true }).animated = true :=
  ⟨rfl, (single_shot_sticky (1/5) [0] { animated := true, observed := true } rfl).1⟩

/-! ## Throttle lemmas and theorem (claim C8) -/

theorem throttleStep_inv (s : Throttle) (ev : ScrollEv) (h : ThrottleInv s) :
    ThrottleInv (throttleStep s ev) := by
  rcases s with ⟨tick, pend, runs⟩
  cases ev <;> cases tick <;> simp [ThrottleInv] at h <;> subst h <;>
    simp [ThrottleInv, throttleStep]

theorem throttleRun_inv (evs : List ScrollEv) : ThrottleInv (throttleRun evs) := by
  have main : ∀ (l : List ScrollEv) (s : Throttle), ThrottleInv s →
      ThrottleInv (l.foldl throttleStep s) := by
    intro l
    induction l with
    | nil => intro s h; exact h
    | cons e l ih => intro s h; exact ih (throttleStep s e) (throttleStep_inv s e h)
  exact main evs _ (by simp [ThrottleInv])

/-- C8: from any reachable gate state, at most one recomputation is
scheduled; a scroll event with the flag set changes nothing; a scroll event
with the flag clear schedules exactly one recomputation and sets the flag,
and the next display-refresh cycle runs that recomputation and clears the
flag, leaving nothing scheduled. -/
theorem scroll_throttle_gate (evs : List ScrollEv) :
    (throttleRun evs).pending ≤ 1 ∧
    ((throttleRun evs).ticking = true →
      throttleStep (throttleRun evs) ScrollEv.scroll = throttleRun evs) ∧
    ((throttleRun evs).ticking = false →
      (throttleStep (throttleRun evs) ScrollEv.scroll).pending =
        (throttleRun evs).pending + 1 ∧
      (throttleStep (throttleRun evs) ScrollEv.scroll).ticking = true ∧
      (throttleStep (throttleStep (throttleRun evs) ScrollEv.scroll) ScrollEv.frame).runs =
        (throttleRun evs).runs + 1 ∧
      (throttleStep (throttleStep (throttleRun evs) ScrollEv.scroll) ScrollEv.frame).ticking =
        false ∧
      (throttleStep (throttleStep (throttleRun evs) ScrollEv.scroll) ScrollEv.frame).pending =
        0) := by
  have hinv := throttleRun_inv evs
  rcases hs : throttleRun evs with ⟨tick, pend, runs⟩
  rw [hs] at hinv
  cases tick <;> simp [ThrottleInv] at hinv <;> subst hinv <;>
    simp [throttleStep]

/-- Witness for C8: after one scroll event the flag is set, and a further
scroll event changes nothing. -/
theorem scroll_throttle_gate_witness :
    (throttleRun [ScrollEv.scroll]).ticking = true ∧
    throttleStep (throttleRun [ScrollEv.scroll]) ScrollEv.scroll =
      throttleRun [ScrollEv.scroll] :=
  ⟨rfl, (scroll_throttle_gate [ScrollEv.scroll]).2.1 rfl⟩

/-! ## Refresh and delay lemmas and theorems (claims C7, C9) -/

theorem passElem_dataScroll (e : PageElem) : (passElem e).dataScroll = e.dataScroll := by
  rcases e with ⟨ds, da, an, td⟩
  cases ds
  · rfl
  · cases da with
    | none => rfl
    | some d => by_cases hd : d = "" <;> simp [passElem, applyDelay, hd]

theorem passElem_animated (e : PageElem) : (passElem e).animated = e.animated := by
  rcases e with ⟨ds, da, an, td⟩
  cases ds
  · rfl
  · cases da with
    | none => rfl
    | some d => by_cases hd : d = "" <;> simp [passElem, applyDelay, hd]

theorem passElem_idem (e : PageElem) : passElem (passElem e) = passElem e := by
  rcases e with ⟨ds, da, an, td⟩
  cases ds
  · rfl
  · cases da with
    | none => rfl
    | some d => by_cases hd : d = "" <;> simp [passElem, applyDelay, hd]

theorem initDocPass_idem (doc : List PageElem) :
    initDocPass (initDocPass doc) = initDocPass doc := by
  unfold initDocPass
  induction doc with
  | nil => rfl
  | cons e es ih => simp only [List.map_cons, passElem_idem, List.map_map] at *; simp [ih]

theorem watchedIdxFrom_pass (doc : List PageElem) :
    ∀ k : ℕ, watchedIdxFrom k (initDocPass doc) = watchedIdxFrom k doc := by
  induction doc with
  | nil => intro k; rfl
  | cons e es ih =>
      intro k
      simp only [initDocPass, List.map_cons, watchedIdxFrom, passElem_dataScroll]
      rw [show List.map passElem es = initDocPass es from rfl, ih (k + 1)]

theorem refreshA_twice (s : Animator) : refreshA (refreshA s) = refreshA s := by
  unfold refreshA unobserveAll initA
  simp only [initDocPass_idem, watchedIdx, watchedIdxFrom_pass]

/-- C7: a second `refresh` with no intervening document change produces the
same watched element set, the same revealed (class-applied) state for every
element, and in fact the identical controller state. -/
theorem refresh_idempotent (s : Animator) :
    (refreshA (refreshA s)).elements = (refreshA s).elements ∧
    (refreshA (refreshA s)).doc.map (fun e => e.animated) =
      (refreshA s).doc.map (fun e => e.animated) ∧
    refreshA (refreshA s) = refreshA s := by
  rw [refreshA_twice]
  exact ⟨rfl, rfl, rfl⟩

theorem initTraceFrom_delay (d : String) (hne : ¬ d = "") (e : PageElem)
    (hs : e.dataScroll = true) (hd : e.delayAttr = some d) :
    ∀ (doc : List PageElem) (k i : ℕ), doc.get? i = some e →
      List.Sublist [InitAction.setDelay (k + i) (d ++ "ms"), InitAction.observe (k + i)]
        (initTraceFrom k doc) := by
  intro doc
  induction doc with
  | nil => intro k i h; simp at h
  | cons f fs ih =>
      intro k i h
      cases i with
      | zero =>
          rw [List.get?_cons_zero] at h
          injection h with h
          subst h
          simp only [initTraceFrom, obsActions, hs, hd, if_pos, if_neg hne, Nat.add_zero]
          exact List.sublist_append_left _ _
      | succ i =>
          rw [List.get?_cons_succ] at h
          have hsub := ih (k + 1) i h
          have harith : k + 1 + i = k + (i + 1) := by omega
          rw [harith] at hsub
          exact hsub.trans (List.sublist_append_right _ _)

/-- C9: a watched element declaring delay attribute value 200 has its
transition delay set to 200ms by an `init` action that strictly precedes
the action observing it; an element with no delay attribute is left
entirely unchanged by `init`'s per-element pass. -/
theorem init_delay_before_observe (doc : List PageElem) (i : ℕ) (e : PageElem)
    (hget : doc.get? i = some e) :
    (e.dataScroll = true → e.delayAttr = some ("200") →
      List.Sublist [InitAction.setDelay i ("200ms"), InitAction.observe i]
        (initTrace doc)) ∧
    (e.delayAttr = none → (initDocPass doc).get? i = some e) := by
  constructor
  · intro hs hd
    have h := initTraceFrom_delay ("200") (by decide) e hs hd doc 0 i hget
    rw [Nat.zero_add] at h
    exact h
  · intro hd
    unfold initDocPass
    rw [List.get?_map, hget]
    have : passElem e = e := by
      unfold passElem applyDelay
      rw [hd]
      split <;> rfl
    simp [this]

/-- Witness for C9 on a one-element document whose element is watched and
declares delay 200. -/
theorem init_delay_before_observe_witness :
    ([({ dataScroll := true, delayAttr := some ("200"), animated := false,
         transitionDelay := none } : PageElem)].get? 0 =
      some ({ dataScroll := true, delayAttr := some ("200"), animated := false,
              transitionDelay := none } : PageElem)) ∧
    List.Sublist [InitAction.setDelay 0 ("200ms"), InitAction.observe 0]
      (initTrace [({ dataScroll := true, delayAttr := some ("200"), animated := false,
                     transitionDelay := none } : PageElem)]) :=
  ⟨rfl,
    (init_delay_before_observe
      [{ dataScroll := true, delayAttr := some ("200"), animated := false,
         transitionDelay := none }] 0 _ rfl).1 rfl rfl⟩

/-! ## Rotation extraction lemmas and theorems (claims C4, C10, C5) -/

theorem rot_of_bad (m : String) (h : parseMatrixAB m = MatrixParse.bad) :
    getRotationFromMatrix m = 0 := by
  unfold getRotationFromMatrix
  rw [h]

theorem rot_of_caught (m : String) (h : parseMatrixAB m = MatrixParse.caught) :
    getRotationFromMatrix m = 0 := by
  unfold getRotationFromMatrix
  rw [h]

theorem rot_none : getRotationFromMatrix ("none") = 0 :=
  rot_of_bad ("none") (by decide)

/-- C4: extraction returns 0 on each listed input, and in general on every
input whose parsing phase does not produce two numeric components; the
caught-exception path is exactly the warning-emitting one and also
returns 0. -/
theorem rotation_failure_returns_zero :
    getRotationFromMatrix ("none") = 0 ∧
    getRotationFromMatrix ("") = 0 ∧
    getRotationFromMatrix ("matrix()") = 0 ∧
    getRotationFromMatrix ("matrix(abc, def)") = 0 ∧
    (∀ m : String, (∀ a b : ℚ, ¬ parseMatrixAB m = MatrixParse.ok a b) →
      getRotationFromMatrix m = 0) ∧
    (∀ m : String, parseMatrixAB m = MatrixParse.caught →
      getRotationFromMatrix m = 0 ∧ emitsWarning m = true) := by
  refine ⟨rot_none, rot_of_bad _ (by decide), rot_of_bad _ (by decide),
    rot_of_bad _ (by decide), ?_, ?_⟩
  · intro m h
    cases hp : parseMatrixAB m with
    | ok a b => exact absurd hp (h a b)
    | bad => exact rot_of_bad m hp
    | caught => exact rot_of_caught m hp
  · intro m hp
    refine ⟨rot_of_caught m hp, ?_⟩
    unfold emitsWarning
    rw [hp]

/-- Witness for C4 at the concrete input abc, which takes the
caught-exception path. -/
theorem rotation_failure_returns_zero_witness :
    parseMatrixAB ("abc") = MatrixParse.caught ∧
    getRotationFromMatrix ("abc") = 0 ∧ emitsWarning ("abc") = true := by
  have hp : parseMatrixAB ("abc") = MatrixParse.caught := by decide
  have h := rotation_failure_returns_zero.2.2.2.2.2 ("abc") hp
  exact ⟨hp, h.1, h.2⟩

theorem round_mono_real {x y : ℝ} (h : x ≤ y) : round x ≤ round y := by
  rw [round_eq, round_eq]
  exact Int.floor_le_floor (by linarith)

theorem round_real_180 : round ((180 : ℝ)) = 180 := by
  have h : ((180 : ℤ) : ℝ) = (180 : ℝ) := by norm_num
  rw [← h, round_intCast]

theorem round_real_neg_180 : round ((-180 : ℝ)) = -180 := by
  have h : (((-180 : ℤ)) : ℝ) = (-180 : ℝ) := by norm_num
  rw [← h, round_intCast]

theorem rotationAngle_bounds (a b : ℝ) :
    -180 ≤ rotationAngle a b ∧ rotationAngle a b ≤ 180 := by
  unfold rotationAngle atan2
  have hpi : 0 < Real.pi := Real.pi_pos
  have h1 : -Real.pi < Complex.arg (Complex.mk a b) := Complex.neg_pi_lt_arg _
  have h2 : Complex.arg (Complex.mk a b) ≤ Real.pi := Complex.arg_le_pi _
  have hq : 0 < 180 / Real.pi := by positivity
  have hd1 : (-180 : ℝ) ≤ Complex.arg (Complex.mk a b) * (180 / Real.pi) := by
    have hle := mul_le_mul_of_nonneg_right h1.le hq.le
    have heq : -Real.pi * (180 / Real.pi) = -180 := by
      field_simp
      try ring
    linarith [heq ▸ hle]
  have hd2 : Complex.arg (Complex.mk a b) * (180 / Real.pi) ≤ 180 := by
    have hle := mul_le_mul_of_nonneg_right h2 hq.le
    have heq : Real.pi * (180 / Real.pi) = 180 := by
      field_simp
      try ring
    linarith [heq ▸ hle]
  constructor
  · have := round_mono_real hd1
    rw [round_real_neg_180] at this
    exact this
  · have := round_mono_real hd2
    rw [round_real_180] at this
    exact this

/-- C10: rotation extraction is total and always yields an integer between
-180 and 180 inclusive. -/
theorem rotation_total_range (m : String) :
    -180 ≤ getRotationFromMatrix m ∧ getRotationFromMatrix m ≤ 180 := by
  unfold getRotationFromMatrix
  cases hp : parseMatrixAB m with
  | ok a b => exact rotationAngle_bounds _ _
  | bad => exact ⟨by norm_num, by norm_num⟩
  | caught => exact ⟨by norm_num, by norm_num⟩

theorem rotationAngle_neg_one_zero : rotationAngle (-1) 0 = 180 := by
  unfold rotationAngle atan2
  have hmk : Complex.mk (-1) 0 = (-1 : ℂ) := by
    apply Complex.ext <;> simp
  rw [hmk, Complex.arg_neg_one]
  have heq : Real.pi * (180 / Real.pi) = 180 := by
    field_simp
    try ring
  rw [heq, round_real_180]

/-- C5 counterexample: the matrix string encoding the pure rotation of
-180 degrees (components cos(-180 deg) = -1 and sin(-180 deg) = 0) is in
the claimed angle range, but extraction returns 180, not
round(-180) = -180. -/
theorem rotation_roundtrip_counterexample :
    (-180 : ℝ) ∈ Set.Icc (-180 : ℝ) 180 ∧
    Real.cos ((-180) * Real.pi / 180) = ((-1 : ℚ) : ℝ) ∧
    Real.sin ((-180) * Real.pi / 180) = ((0 : ℚ) : ℝ) ∧
    parseMatrixAB ("matrix(-1, 0, 0, -1, 0, 0)") = MatrixParse.ok (-1) 0 ∧
    getRotationFromMatrix ("matrix(-1, 0, 0, -1, 0, 0)") = 180 ∧
    ¬ getRotationFromMatrix ("matrix(-1, 0, 0, -1, 0, 0)") = round ((-180 : ℝ)) := by
  have hφ : (-180 : ℝ) * Real.pi / 180 = -Real.pi := by ring
  have hparse : parseMatrixAB ("matrix(-1, 0, 0, -1, 0, 0)") = MatrixParse.ok (-1) 0 := by
    with_unfolding_all decide
  have hrot : getRotationFromMatrix ("matrix(-1, 0, 0, -1, 0, 0)") = 180 := by
    unfold getRotationFromMatrix
    rw [hparse]
    show rotationAngle ((-1 : ℚ) : ℝ) ((0 : ℚ) : ℝ) = 180
    rw [show ((-1 : ℚ) : ℝ) = (-1 : ℝ) by norm_num,
      show ((0 : ℚ) : ℝ) = (0 : ℝ) by norm_num]
    exact rotationAngle_neg_one_zero
  refine ⟨?_, ?_, ?_, hparse, hrot, ?_⟩
  · rw [Set.mem_Icc]; constructor <;> norm_num
  · rw [hφ, Real.cos_neg, Real.cos_pi]; norm_num
  · rw [hφ, Real.sin_neg, Real.sin_pi]; norm_num
  · rw [hrot, round_real_neg_180]; decide

/-- C5 amended: for every angle strictly above -180 and at most 180
degrees, extraction applied to the components cos and sin of the pure
rotation returns exactly round of the angle; the endpoint -180 itself is
excluded, where the computation returns 180 instead. -/
theorem rotation_roundtrip_amended (θ : ℝ) (h1 : -180 < θ) (h2 : θ ≤ 180) :
    rotationAngle (Real.cos (θ * Real.pi / 180)) (Real.sin (θ * Real.pi / 180)) =
      round θ := by
  have hpi : 0 < Real.pi := Real.pi_pos
  have hmem : θ * Real.pi / 180 ∈ Set.Ioc (-Real.pi) Real.pi := by
    constructor
    · rw [lt_div_iff (by norm_num : (0 : ℝ) < 180)]
      nlinarith
    · rw [div_le_iff (by norm_num : (0 : ℝ) < 180)]
      nlinarith
  have harg : Complex.arg
      (Complex.mk (Real.cos (θ * Real.pi / 180)) (Real.sin (θ * Real.pi / 180))) =
      θ * Real.pi / 180 := by
    rw [Complex.mk_eq_add_mul_I, Complex.ofReal_cos, Complex.ofReal_sin]
    exact Complex.arg_cos_add_sin_mul_I hmem
  unfold rotationAngle atan2
  rw [harg]
  have heq : θ * Real.pi / 180 * (180 / Real.pi) = θ := by
    field_simp
  rw [heq]

/-- Witness for the amended C5 at 90 degrees. -/
theorem rotation_roundtrip_amended_witness :
    (-180 : ℝ) < 90 ∧ (90 : ℝ) ≤ 180 ∧
    rotationAngle (Real.cos (90 * Real.pi / 180)) (Real.sin (90 * Real.pi / 180)) =
      round ((90 : ℝ)) :=
  ⟨by norm_num, by norm_num, rotation_roundtrip_amended 90 (by norm_num) (by norm_num)⟩

/-! ## Parallax lemmas and theorems (claims C1, C6) -/

theorem updateParallaxFrom_get? (scrolled : ℚ) (ts : List Decorative) :
    ∀ (k i : ℕ),
      (updateParallaxFrom scrolled k ts).get? i =
        (ts.get? i).map (fun t =>
          if closestDataScroll t && !t.self.animated then none
          else some (-(scrolled * (3/10 + ((k + i : ℕ) : ℚ) * (1/10))),
                     getRotationFromMatrix t.transform)) := by
  induction ts with
  | nil => intro k i; simp [updateParallaxFrom]
  | cons t ts ih =>
      intro k i
      cases i with
      | zero =>
          simp [updateParallaxFrom]
      | succ i =>
          show (updateParallaxFrom scrolled (k + 1) ts).get? i = _
          rw [ih (k + 1) i]
          have harith : k + 1 + i = k + (i + 1) := by omega
          rw [harith]
          rfl

/-- C1 counterexample: a decorative element strictly inside a watched
element that HAS been revealed (the ancestor carries `data-scroll` and the
class `animated`) is still skipped by the recomputation, because the source
tests the decorative element's own class list, not the ancestor's revealed
state. -/
theorem nested_decorative_counterexample :
    nestedTriangle.ancestors = [{ dataScroll := true, animated := true }] ∧
    nestedTriangle.self.dataScroll = false ∧
    nestedTriangle.self.animated = false ∧
    updateParallax 5 [nestedTriangle] = [none] := by
  refine ⟨rfl, rfl, rfl, ?_⟩
  show updateParallaxFrom 5 0 [nestedTriangle] = [none]
  unfold updateParallaxFrom
  simp [closestDataScroll, nestedTriangle, updateParallaxFrom]

/-- C1 amended: the recomputation skips a decorative element exactly when
the element or one of its ancestors is watched AND the element itself does
not carry the class `animated`; in particular a decorative element that is
itself watched is excluded until revealed and included on the next tick
once its own class is applied, but a decorative element strictly inside a
watched ancestor is keyed to its own class list, not to the ancestor's
revealed state. -/
theorem decorative_skip_amended (scrolled : ℚ) (ts : List Decorative) (i : ℕ)
    (t : Decorative) (hget : ts.get? i = some t) :
    (updateParallax scrolled ts).get? i =
      some (if closestDataScroll t && !t.self.animated then none
            else some (-(scrolled * (3/10 + (i : ℚ) * (1/10))),
                       getRotationFromMatrix t.transform)) := by
  show (updateParallaxFrom scrolled 0 ts).get? i = _
  rw [updateParallaxFrom_get? scrolled ts 0 i, hget]
  simp

/-- Witness for the amended C1: a free-standing decorative element is
included, with its computed transform. -/
theorem decorative_skip_amended_witness :
    ([plainTriangle].get? 0 = some plainTriangle) ∧
    (updateParallax 7 [plainTriangle]).get? 0 =
      some (some (-(7 * (3/10 + (0 : ℚ) * (1/10))), 0)) := by
  refine ⟨rfl, ?_⟩
  rw [decorative_skip_amended 7 [plainTriangle] 0 plainTriangle rfl]
  simp [closestDataScroll, plainTriangle, rot_none]

/-- C6: whenever the recomputation applies a transform to the decorative
element at zero-based position i, the vertical offset applied is exactly
the negation of the scroll offset times (0.3 + 0.1 * i). -/
theorem parallax_offset_formula (scrolled : ℚ) (ts : List Decorative) (i : ℕ)
    (y : ℚ) (r : ℤ)
    (hget : (updateParallax scrolled ts).get? i = some (some (y, r))) :
    y = -(scrolled * (3/10 + (1/10) * (i : ℚ))) := by
  have h : (updateParallaxFrom scrolled 0 ts).get? i = some (some (y, r)) := hget
  rw [updateParallaxFrom_get? scrolled ts 0 i] at h
  cases ht : ts.get? i with
  | none => rw [ht] at h; simp at h
  | some t =>
      rw [ht] at h
      simp only [Option.map_some', Option.some.injEq] at h
      by_cases hc : (closestDataScroll t && !t.self.animated) = true
      · rw [if_pos hc] at h
        exact absurd h (by simp)
      · rw [if_neg hc] at h
        have hy : -(scrolled * (3/10 + ((0 + i : ℕ) : ℚ) * (1/10))) = y := by
          have := congrArg (fun o => o.map Prod.fst) h
          simpa using this
        rw [← hy, Nat.zero_add]
        ring

/-- Witness for C6 on a one-element document at scroll offset 10: the
applied offset -3 equals the formula value. -/
theorem parallax_offset_formula_witness :
    (updateParallax 10 [plainTriangle]).get? 0 = some (some (-3, 0)) ∧
    (-3 : ℚ) = -(10 * (3/10 + (1/10) * ((0 : ℕ) : ℚ))) := by
  have hget : (updateParallax 10 [plainTriangle]).get? 0 = some (some (-3, 0)) := by
    show (updateParallaxFrom 10 0 [plainTriangle]).get? 0 = _
    unfold updateParallaxFrom
    simp [closestDataScroll, plainTriangle, rot_none]
    norm_num
  exact ⟨hget, parallax_offset_formula 10 [plainTriangle] 0 (-3) 0 hget⟩
